import Mathlib

/-!
Verification of the note-unkey rate-limiting core against its
natural-language specification.

This file shallowly embeds, in Lean 4, the parts of the repository that the
frozen claims C1-C10 are about:

* the two `codeToStatus` implementations
  (`src/apps/api/src/pkg/errors/http.ts` and `src/unnamed/part_001`);
* `MemoryStore.get` / `MemoryStore.set`
  (`src/packages/cache/src/stores/memory.ts`);
* `TieredStore.get`, including the exact shape of its background backfill
  (`src/unnamed/part_016`);
* `SwrCache.deduplicateLoadFromOrigin` (`src/packages/cache/src/swr.ts`);
* the override-resolution, namespace auto-creation and response assembly of
  `registerV1RatelimitLimit` (`src/unnamed/part_003`);
* the sliding-window limiter, which is not present under the sources and is
  therefore modelled from the spec (section 4.1).

Machine integers do not overflow in any embedded path at the sizes involved
(JS numbers are doubles; all counts here are small integers), so counters and
times are modelled as `Nat` and the interpolated effective count as `Rat`.
-/

/-! ## Error codes and the two codeToStatus implementations (C10) -/

/-- The shared `ErrorCode` enum, as declared identically in
`src/apps/api/src/pkg/errors/http.ts` and `src/unnamed/part_001`. -/
inductive ErrorCode where
  | BAD_REQUEST
  | FORBIDDEN
  | INTERNAL_SERVER_ERROR
  | USAGE_EXCEEDED
  | DISABLED
  | NOT_FOUND
  | CONFLICT
  | RATE_LIMITED
  | UNAUTHORIZED
  | PRECONDITION_FAILED
  | INSUFFICIENT_PERMISSIONS
  | METHOD_NOT_ALLOWED
  | EXPIRED
  | DELETE_PROTECTED
deriving DecidableEq, Fintype

namespace ErrorsHttp

/-- `codeToStatus` from `src/apps/api/src/pkg/errors/http.ts` (lines 105-132). -/
def codeToStatus : ErrorCode → Nat
  | .BAD_REQUEST => 400
  | .UNAUTHORIZED => 401
  | .FORBIDDEN => 403
  | .INSUFFICIENT_PERMISSIONS => 403
  | .NOT_FOUND => 404
  | .METHOD_NOT_ALLOWED => 405
  | .CONFLICT => 409
  | .PRECONDITION_FAILED => 412
  | .DELETE_PROTECTED => 412
  | .RATE_LIMITED => 429
  | .USAGE_EXCEEDED => 429
  | .INTERNAL_SERVER_ERROR => 500
  | .DISABLED => 500
  | .EXPIRED => 500

end ErrorsHttp

namespace Part001

/-- `codeToStatus` from `src/unnamed/part_001` (lines 105-130). -/
def codeToStatus : ErrorCode → Nat
  | .BAD_REQUEST => 400
  | .FORBIDDEN => 403
  | .DISABLED => 403
  | .UNAUTHORIZED => 403
  | .INSUFFICIENT_PERMISSIONS => 403
  | .USAGE_EXCEEDED => 403
  | .EXPIRED => 403
  | .NOT_FOUND => 404
  | .METHOD_NOT_ALLOWED => 405
  | .CONFLICT => 409
  | .DELETE_PROTECTED => 412
  | .PRECONDITION_FAILED => 412
  | .RATE_LIMITED => 429
  | .INTERNAL_SERVER_ERROR => 500

end Part001

/-! ## Association-list helpers

The JS code stores cache state in `Map<string, V>`. Between two suspension
points a JS `Map` behaves like a finite map; we embed it as an association
list. `deduplicateLoadFromOrigin` only inserts a key after observing it
absent, so the lists never hold duplicate keys on the paths we model;
`eraseA` (the embedding of `Map.delete`) removes every pair with the key. -/

/-- `Map.get`. -/
def lookupA {α : Type} (l : List (String × α)) (k : String) : Option α :=
  (l.find? (fun p => p.1 == k)).map (·.2)

/-- `Map.delete`. -/
def eraseA {α : Type} (l : List (String × α)) (k : String) : List (String × α) :=
  l.filter (fun p => !(p.1 == k))

/-- `Map.set`: replace the entry for `k` in place, or append a new one. -/
def setA {α : Type} : List (String × α) → String → α → List (String × α)
  | [], k, v => [(k, v)]
  | (k', v') :: rest, k, v =>
    if k' == k then (k, v) :: rest else (k', v') :: setA rest k v

/-! ## MemoryStore (C9), from src/packages/cache/src/stores/memory.ts

The cached value type is abstracted as `Nat`; nothing in `get`/`set` inspects
it. -/

/-- A cache `Entry<TValue>` (`{value, freshUntil, staleUntil}`). -/
structure MemEntry where
  value : Nat
  freshUntil : Nat
  staleUntil : Nat
deriving DecidableEq

/-- What `MemoryStore` keeps per key: `{ expires: number; entry: Entry<TValue> }`. -/
structure MemStored where
  expires : Nat
  entry : MemEntry
deriving DecidableEq

/-- The `state` map of a `MemoryStore`. -/
abbrev MemState : Type := List (String × MemStored)

/-- `buildCacheKey`: `[namespace, key].join("::")`. -/
def buildCacheKey (ns k : String) : String :=
  ns ++ "::" ++ k

/-- `MemoryStore.set` (lines 121-155 of memory.ts, without the probabilistic
eviction, which no claim concerns): stores `{expires: entry.staleUntil, entry}`. -/
def memorySet (st : MemState) (ns k : String) (e : MemEntry) : MemState :=
  setA st (buildCacheKey ns k) ⟨e.staleUntil, e⟩

/-- `MemoryStore.get` (lines 98-110 of memory.ts), translated line by line:

```
const value = this.state.get(this.buildCacheKey(namespace, key));
if (!value) { return Promise.resolve(Ok(undefined)); }
if (value.expires <= Date.now()) { await this.remove(namespace, key); }
return Promise.resolve(Ok(value.entry));
```

The returned pair is `(the Ok payload, the state after the call)`. Note that
the expired branch removes the entry but still falls through to
`return Ok(value.entry)`. -/
def memoryGet (st : MemState) (ns k : String) (now : Nat) :
    Option MemEntry × MemState :=
  match lookupA st (buildCacheKey ns k) with
  | none => (none, st)
  | some v =>
    if v.expires ≤ now then (some v.entry, eraseA st (buildCacheKey ns k))
    else (some v.entry, st)

/-! ## TieredStore (C7, C8), from src/unnamed/part_016

A tier is embedded by its observable behavior on `get`/`set` for one probed
key space: either every call fails with a fixed error message (`fails = some
m`), or it serves from its `data` map. -/

/-- One store tier. -/
structure TierState where
  fails : Option String
  data : List (String × Nat)
deriving DecidableEq

/-- A tier's `get`: `Err(CacheError)` if the tier fails, otherwise the map
lookup (`Ok(undefined)` on a miss). -/
def tierGet (t : TierState) (k : String) : Except String (Option Nat) :=
  match t.fails with
  | some m => .error m
  | none => .ok (lookupA t.data k)

/-- A tier's `set` on the list of tiers: write `v` at key `k` into tier `i`. -/
def setInTier : List TierState → Nat → String → Nat → List TierState
  | [], _, _, _ => []
  | t :: rest, 0, k, v => { t with data := setA t.data k v } :: rest
  | t :: rest, i + 1, k, v => t :: setInTier rest i k v

/-- A JavaScript value passed to `Promise.all`. The backfill code in
`TieredStore.get` builds `this.tiers.filter((_, j) => j < i).map((t) => () =>
t.set(namespace, key, res.val!))` — an array of plain *functions* wrapping the
`set` call (`funVal`), not of the promises a direct `.map((t) =>
t.set(...))` would produce (`promiseOf`). -/
inductive JsVal where
  | funVal (tierIdx : Nat) (k : String) (v : Nat)
  | promiseOf (tierIdx : Nat) (k : String) (v : Nat)
deriving DecidableEq

/-- `await Promise.all(vs)` as a transformer of the tier states: a pending
`set` promise runs to completion; a plain function value is not a thenable,
so `Promise.all` resolves with it without ever invoking it. -/
def jsAwaitAll (vs : List JsVal) (tiers : List TierState) : List TierState :=
  vs.foldl
    (fun ts v =>
      match v with
      | .funVal _ _ _ => ts
      | .promiseOf i k x => setInTier ts i k x)
    tiers

/-- The probe loop of `TieredStore.get` (lines 66-105 of part_016), carrying
the absolute index `i` of the tier under probe. Returns the `Result` together
with the `JsVal` list handed to the scheduled `Promise.all`:

* a tier error returns that `Err` at once (`if (res.err) { return res; }`);
* a hit at tier `i` returns `Ok(res.val)` and schedules
  `Promise.all([...thunks for tiers 0..i-1])`;
* a miss advances to the next tier; all-miss returns `Ok(undefined)`. -/
def tieredGetLoop : List TierState → String → Nat → Except String (Option Nat) × List JsVal
  | [], _, _ => (.ok none, [])
  | t :: rest, k, i =>
    match tierGet t k with
    | .error m => (.error m, [])
    | .ok (some v) => (.ok (some v), (List.range i).map (fun j => .funVal j k v))
    | .ok none => tieredGetLoop rest k (i + 1)

/-- `TieredStore.get` (the `tiers.length == 0` early return coincides with the
empty-list case of the loop). -/
def tieredGet (tiers : List TierState) (k : String) :
    Except String (Option Nat) × List JsVal :=
  tieredGetLoop tiers k 0

/-- The tier states after the background work scheduled by
`ctx.waitUntil(Promise.all(...))` has completed. -/
def tieredGetAfterBackground (tiers : List TierState) (k : String) : List TierState :=
  jsAwaitAll (tieredGet tiers k).2 tiers

/-! ## Wildcard matching and override resolution (C1), from src/unnamed/part_003

The handler imports `match` from `@/pkg/util/wildcard`; that file is not in
the sources, so the matcher itself is modelled from the spec. The selection
logic around it (lines 597-616 of part_003) is translated from the source. -/

/-- Modelled from the spec: the wildcard matcher `match` of
`@/pkg/util/wildcard` is absent from the sources; the spec's grammar (section
4.3) says a `*` matches zero-or-more characters, there are no other
metacharacters, and matching is left-to-right. The recursion is paced by
`fuel`, which the wrapper sets above `pattern.length + id.length`; every
recursive call shrinks that sum by at least one, so the out-of-fuel branch is
never taken. -/
def wcMatchFuel : Nat → List Char → List Char → Bool
  | 0, _, _ => false
  | _ + 1, [], [] => true
  | _ + 1, [], _ :: _ => false
  | f + 1, '*' :: ps, [] => wcMatchFuel f ps []
  | f + 1, '*' :: ps, c :: ss => wcMatchFuel f ps (c :: ss) || wcMatchFuel f ('*' :: ps) ss
  | _ + 1, _ :: _, [] => false
  | f + 1, p :: ps, c :: ss => p == c && wcMatchFuel f ps ss

/-- The wildcard matcher on strings. -/
def wcMatch (pat id : String) : Bool :=
  wcMatchFuel (pat.length + id.length + 1) pat.toList id.toList

/-- The check `o.identifier.includes("*")`: the pattern contains a `*`
character. (`String.contains` is extern-backed and does not reduce in the
kernel, so the underlying character list is consulted instead.) -/
def includesStar (s : String) : Bool :=
  s.toList.contains '*'

/-- A ratelimit override row as selected by the handler's query
(`identifier`, `limit`, `duration`, `async`, `sharding`; the `async` and
`sharding` columns are nullable). -/
structure OverrideRow where
  identifier : String
  limit : Nat
  duration : Nat
  async : Option Bool
  sharding : Option String
deriving DecidableEq

/-- Override selection of `registerV1RatelimitLimit` (part_003 lines
597-616): first `overrides.find` for an exact identifier match, otherwise
`overrides.find` for the first override whose pattern contains `*` and
matches the identifier. -/
def resolveOverride (os : List OverrideRow) (id : String) : Option OverrideRow :=
  match os.find? (fun o => o.identifier == id) with
  | some o => some o
  | none => os.find? (fun o => includesStar o.identifier && wcMatch o.identifier id)

/-- Number of `*` characters in a pattern (spec section 4.3). -/
def starCount (p : String) : Nat :=
  p.toList.count '*'

/-- Length of the non-wildcard prefix of a pattern (spec section 4.3). -/
def nonWildcardPrefixLen (p : String) : Nat :=
  (p.toList.takeWhile (fun c => !(c == '*'))).length

/-- The spec's strict priority on wildcard patterns: fewer `*` characters,
ties broken by longer non-wildcard prefix, further ties broken
lexicographically. -/
def specBetterWildcard (a b : String) : Bool :=
  if starCount a ≠ starCount b then decide (starCount a < starCount b)
  else if nonWildcardPrefixLen a ≠ nonWildcardPrefixLen b then
    decide (nonWildcardPrefixLen b < nonWildcardPrefixLen a)
  else decide (a < b)

/-- The resolver as the spec's words describe it (section 4.3, step 3): exact
literal match first, otherwise the best matching wildcard under
`specBetterWildcard`. Stated only to be compared with `resolveOverride`. -/
def specResolveOverride (os : List OverrideRow) (id : String) : Option OverrideRow :=
  match os.find? (fun o => o.identifier == id) with
  | some o => some o
  | none =>
    (os.filter (fun o => includesStar o.identifier && wcMatch o.identifier id)).foldl
      (fun acc o =>
        match acc with
        | none => some o
        | some b => if specBetterWildcard o.identifier b.identifier then some o else some b)
      none

/-- The resolver as the amended claim describes it: the exact literal match
when one exists, otherwise the first override in the namespace's stored
override order whose pattern contains `*` and matches the identifier. -/
def amendedResolveOverride (os : List OverrideRow) (id : String) : Option OverrideRow :=
  match (os.filter (fun o => o.identifier == id)).head? with
  | some o => some o
  | none =>
    (os.filter (fun o => includesStar o.identifier && wcMatch o.identifier id)).head?

/-! ## The limiter call built by the handler (C2, C4), from src/unnamed/part_003 -/

/-- The request fields of `/v1/ratelimits.limit` that reach the limiter call
(`nsName` embeds the JSON field `namespace`, a reserved word in Lean). -/
structure V1LimitRequest where
  nsName : String
  identifier : String
  limit : Nat
  duration : Nat
  cost : Nat
  async : Bool
deriving DecidableEq

/-- The argument record of `rateLimiter.limit` (the `ratelimitRequestSchema`
of src/apps/api/src/pkg/ratelimit/interface.ts). -/
structure RatelimitCall where
  name : String
  workspaceId : String
  namespaceId : String
  identifier : String
  interval : Nat
  limit : Nat
  shard : String
  cost : Nat
  async : Bool
deriving DecidableEq

/-- `Boolean.prototype.toString`. -/
def boolStr : Bool → String
  | true => "true"
  | false => "false"

/-- How `Array.prototype.join` renders a `boolean | null` element: `null`
becomes the empty string. -/
def optBoolStr : Option Bool → String
  | some b => boolStr b
  | none => ""

/-- Lines 669-700 of part_003: select the effective parameters
(`override?.limit ?? req.limit`, `override?.duration ?? req.duration`,
`typeof override?.async !== "undefined" ? override.async : req.async`,
`override?.sharding`) and assemble the `rateLimiter.limit` argument. When an
override exists its `async` column is never `undefined` (it is `boolean |
null`), so the `typeof` test takes the override's value exactly when an
override matched. Note the assembled record passes `async: req.async`
(line 699), not the override-derived `async` — that variable only reaches
the joined `identifier` string. -/
def buildRatelimitCall (workspaceId namespaceId : String) (ov : Option OverrideRow)
    (req : V1LimitRequest) (edgeColo : String) : RatelimitCall :=
  let lim := match ov with
    | some o => o.limit
    | none => req.limit
  let dur := match ov with
    | some o => o.duration
    | none => req.duration
  let asyncEff : Option Bool := match ov with
    | some o => o.async
    | none => some req.async
  let shardDirective : Option String := match ov with
    | some o => o.sharding
    | none => none
  let shard := if shardDirective == some "edge" then edgeColo else "global"
  { name := "default"
    workspaceId := workspaceId
    namespaceId := namespaceId
    identifier := String.intercalate "::"
      [namespaceId, req.identifier, toString lim, toString dur, optBoolStr asyncEff]
    interval := dur
    limit := lim
    shard := shard
    cost := req.cost
    async := req.async }

/-- The effective limit of a Limit call (part_003 line 670:
`override?.limit ?? req.limit`, with the override resolved as in the cache
callback). -/
def effectiveLimit (os : List OverrideRow) (id : String) (reqLimit : Nat) : Nat :=
  match resolveOverride os id with
  | some o => o.limit
  | none => reqLimit

/-- Line 713 of part_003: `const remaining = Math.max(0, limit -
ratelimitResponse.current);` with `limit` the effective limit. The limiter's
reported `current` is a JS number (the interpolated effective count), so it
is embedded as a rational. -/
def handlerRemaining (os : List OverrideRow) (id : String) (reqLimit : Nat)
    (current : ℚ) : ℚ :=
  max 0 ((effectiveLimit os id reqLimit : ℚ) - current)

/-! ## Namespace auto-creation (C5), from src/unnamed/part_003 lines 526-587

The primary store's `ratelimitNamespaces` table is embedded as a list of
rows. Per the spec (section 6), `(workspace_id, name)` is unique among
non-deleted rows; an insert that violates it raises the duplicate-key error
the handler catches. The race between the handler's read and its insert is
captured by letting the creation path run against an arbitrary table state:
a concurrent call that already inserted the row is exactly the state in
which the insert reports a duplicate. -/

/-- A `ratelimitNamespaces` row (the fields the handler touches). -/
structure NamespaceRow where
  id : String
  workspaceId : String
  name : String
  deletedAt : Option Nat
  createdAt : Nat
deriving DecidableEq

/-- The namespaces table. -/
abbrev NamespaceDB : Type := List NamespaceRow

/-- The `where` predicate of the handler's first query:
`eq(workspaceId) and eq(name) and isNull(deletedAtM)`. -/
def activeFor (ws nm : String) (r : NamespaceRow) : Bool :=
  r.workspaceId == ws && r.name == nm && r.deletedAt.isNone

/-- `db.readonly.query.ratelimitNamespaces.findFirst` with the active-row
predicate (part_003 lines 493-499). -/
def findActiveNamespace (db : NamespaceDB) (ws nm : String) : Option NamespaceRow :=
  db.find? (activeFor ws nm)

/-- Number of non-deleted rows for `(ws, nm)`. -/
def countActive (db : NamespaceDB) (ws nm : String) : Nat :=
  (db.filter (activeFor ws nm)).length

/-- `db.primary.insert(schema.ratelimitNamespaces).values(namespace)`:
succeeds by appending the row, or raises the duplicate-entry error when a
non-deleted row with the same `(workspace_id, name)` already exists. -/
def insertNamespace (db : NamespaceDB) (row : NamespaceRow) : Except Unit NamespaceDB :=
  if (findActiveNamespace db row.workspaceId row.name).isSome then .error ()
  else .ok (db ++ [row])

/-- The `try`/`catch` of part_003 lines 544-583: attempt the insert; on the
duplicate-entry error, re-read with `eq(name) and eq(workspaceId)` (the catch
path's query, lines 573-579, has no `isNull(deletedAtM)` condition). -/
def createNamespaceFallback (db : NamespaceDB) (row : NamespaceRow) :
    NamespaceDB × Option NamespaceRow :=
  match insertNamespace db row with
  | .ok db' => (db', some row)
  | .error _ =>
    (db, db.find? (fun r => r.name == row.name && r.workspaceId == row.workspaceId))

/-- Lines 526-587 of part_003: the namespace part of the cache callback. If
an active namespace row exists, use it; otherwise, callers without the
`create_namespace` permission get `null` (which the handler surfaces as
`NOT_FOUND`), and callers with it create the namespace through the
duplicate-safe path. -/
def namespaceForLimit (db : NamespaceDB) (canCreate : Bool) (ws nm newid : String)
    (now : Nat) : NamespaceDB × Option NamespaceRow :=
  match findActiveNamespace db ws nm with
  | some r => (db, some r)
  | none =>
    if canCreate then
      createNamespaceFallback db ⟨newid, ws, nm, none, now⟩
    else (db, none)

/-- Lines 634-639 of part_003: a `null` cache value becomes the `NOT_FOUND`
error `namespace not found`. -/
def namespaceOrNotFound (db : NamespaceDB) (canCreate : Bool) (ws nm newid : String)
    (now : Nat) : NamespaceDB × Except ErrorCode NamespaceRow :=
  match namespaceForLimit db canCreate ws nm newid now with
  | (db', some r) => (db', .ok r)
  | (db', none) => (db', .error .NOT_FOUND)

/-! ## Single-flight deduplication (C6), from src/packages/cache/src/swr.ts

`SwrCache.deduplicateLoadFromOrigin` (lines 203-224) guards the origin fetch
with the `revalidating: Map<string, Promise<...>>`. JavaScript runs the
method body atomically up to its first `await`, so the test of the map, the
call of `loadFromOrigin` and the `set` are one atomic step; the `finally`
deletion is another. Promises are named by numeric ids. -/

/-- The `revalidating` map: revalidate key to in-flight promise id. -/
abbrev SwrState : Type := List (String × Nat)

/-- One call of `deduplicateLoadFromOrigin` up to its first `await`, for a
fixed revalidate key: if a promise is registered, return it (origin not
invoked, state unchanged); otherwise invoke `loadFromOrigin`, obtaining the
fresh promise `freshPid`, and register it. Returns `(origin invoked?,
promise awaited, map state)`. -/
def deduplicateLoadFromOrigin (st : SwrState) (key : String) (freshPid : Nat) :
    Bool × Nat × SwrState :=
  match lookupA st key with
  | some p => (false, p, st)
  | none => (true, freshPid, (key, freshPid) :: st)

/-- The `finally` block: once the awaited promise settles — fulfilled or
rejected (`ok` is ignored) — the caller deletes the in-flight marker. -/
def revalidateSettle (st : SwrState) (key : String) (_ok : Bool) : SwrState :=
  eraseA st key

/-- Process a burst of concurrent `deduplicateLoadFromOrigin` calls (no
promise settles in between, so no `finally` runs), giving the `n`-th call
the fresh promise id `n`, and count how many of the calls for `key = k`
invoked `loadFromOrigin`. -/
def countInvocations (st : SwrState) (calls : List String) (k : String) (n : Nat) : Nat :=
  match calls with
  | [] => 0
  | c :: rest =>
    let r := deduplicateLoadFromOrigin st c n
    (if c = k ∧ r.1 = true then 1 else 0) + countInvocations r.2.2 rest k (n + 1)

/-! ## Sliding-window limiter (C3)

Modelled from the spec: the limiter behind the `RateLimiter` interface of
src/apps/api/src/pkg/ratelimit/interface.ts is not under the sources (only
its schema and interface are), so the counter follows spec section 4.1
literally: two adjacent fixed windows, linear interpolation, pass iff
`effective + cost <= limit`, increment only on pass; and, per the same
section and the schema's own comment (`Setting cost to 0 should not change
anything but return the current limit`), a `cost = 0` call is a peek that
writes nothing back. Times are unix milliseconds (`Nat`), counts are `Nat`,
the interpolated effective count is a rational. -/

/-- Counter state: `current_start`, current window count, previous window
count. -/
structure Counter where
  start : Nat
  current : Nat
  previous : Nat
deriving DecidableEq

/-- A lazily created counter starts empty. -/
def counterInit : Counter :=
  ⟨0, 0, 0⟩

/-- `window_start = floor(t / duration) * duration`. -/
def windowStart (D t : Nat) : Nat :=
  D * (t / D)

/-- `weight = 1 - elapsed_in_window / duration`. -/
def weight (D t : Nat) : ℚ :=
  1 - ((t % D : Nat) : ℚ) / (D : ℚ)

/-- Roll the counter into the window of `t`: if the stored `current_start`
differs, `previous := current`, `current := 0`. -/
def roll (D t : Nat) (s : Counter) : Counter :=
  if s.start = windowStart D t then s else ⟨windowStart D t, 0, s.current⟩

/-- `effective_count = current + weight * previous`. -/
def effective (D t : Nat) (s : Counter) : ℚ :=
  (s.current : ℚ) + weight D t * (s.previous : ℚ)

/-- The limiter's response fields a Limit call observes. -/
structure Decision where
  passed : Bool
  current : ℚ
  remaining : Int
  reset : Nat
deriving DecidableEq

/-- One Limit evaluation at time `t` with cost `cost` against counter `s`
(spec section 4.1): roll, interpolate, pass iff `effective + cost ≤ limit`,
increment `current` by `cost` only on pass, `reset_at = window_start +
duration`, `remaining = max(0, limit - ceil(effective))`; a `cost = 0` call
stores nothing. -/
def step (L D t cost : Nat) (s : Counter) : Counter × Decision :=
  let r := roll D t s
  let e := effective D t r
  let passed := decide (e + (cost : ℚ) ≤ (L : ℚ))
  let s' := if cost = 0 then s
    else if passed then { r with current := r.current + cost } else r
  (s', { passed := passed
         current := e
         remaining := max 0 ((L : Int) - Int.ceil e)
         reset := windowStart D t + D })

/-- Run a chronological trace of `(time, cost)` requests. -/
def runTrace (L D : Nat) (reqs : List (Nat × Nat)) (s : Counter) : Counter :=
  reqs.foldl (fun s tc => (step L D tc.1 tc.2 s).1) s

/-- Times of a request trace are nondecreasing, starting no earlier than
`t0`. -/
def chronoB : Nat → List (Nat × Nat) → Bool
  | _, [] => true
  | t0, (t, _) :: rest => decide (t0 ≤ t) && chronoB t rest

/-- The time of the last request (or `t0` for an empty trace). -/
def lastT : Nat → List (Nat × Nat) → Nat
  | t0, [] => t0
  | _, (t, _) :: rest => lastT t rest

/-- The reachable-state invariant of the sliding-window counter with
parameters `(L, D)`: both window counts are at most `L`, and from time `t0`
on, the interpolated effective count never exceeds `L`. -/
def CounterInv (L D t0 : Nat) (s : Counter) : Prop :=
  (s.current : ℚ) ≤ (L : ℚ) ∧ (s.previous : ℚ) ≤ (L : ℚ) ∧
    ∀ t, t0 ≤ t → effective D t (roll D t s) ≤ (L : ℚ)

/-! ## Helper lemmas -/

/-- `find?` returns the head of the filtered list. -/
theorem find?_eq_head?_filter {α : Type} (p : α → Bool) (l : List α) :
    l.find? p = (l.filter p).head? := by
  induction l with
  | nil => rfl
  | cons a l ih =>
    by_cases h : p a
    · rw [List.find?_cons_of_pos _ h, List.filter_cons, if_pos h]
      rfl
    · rw [List.find?_cons_of_neg _ h, List.filter_cons, if_neg h]
      exact ih

/-- `lookupA` on a cons cell. -/
theorem lookupA_cons {α : Type} (c k : String) (v : α) (st : List (String × α)) :
    lookupA ((c, v) :: st) k = if c == k then some v else lookupA st k := by
  cases h : (c == k) <;> simp [lookupA, List.find?_cons, h]

/-- `Map.delete` really removes the key. -/
theorem lookupA_eraseA {α : Type} (st : List (String × α)) (k : String) :
    lookupA (eraseA st k) k = none := by
  rw [lookupA, Option.map_eq_none', List.find?_eq_none]
  intro x hx
  have hmem := List.of_mem_filter hx
  simp only [Bool.not_eq_true'] at hmem
  simp [hmem]

/-! ## C10: the two codeToStatus implementations -/

/-- C10 (counterexample): the two `codeToStatus` implementations do not
return the same status for every shared error code — on `UNAUTHORIZED` the
http.ts version returns 401 while the part_001 version returns 403. -/
theorem codeToStatus_disagree_unauthorized :
    ErrorsHttp.codeToStatus ErrorCode.UNAUTHORIZED = 401 ∧
    Part001.codeToStatus ErrorCode.UNAUTHORIZED = 403 ∧
    ErrorsHttp.codeToStatus ErrorCode.UNAUTHORIZED ≠
      Part001.codeToStatus ErrorCode.UNAUTHORIZED := by
  refine ⟨rfl, rfl, ?_⟩
  decide

/-- C10 (amended): the two `codeToStatus` implementations agree on exactly
the codes outside `{UNAUTHORIZED, USAGE_EXCEEDED, DISABLED, EXPIRED}`; on
those four the http.ts version returns 401/429/500/500 and the part_001
version returns 403. -/
theorem codeToStatus_agreement_partition :
    (∀ c : ErrorCode,
      ErrorsHttp.codeToStatus c = Part001.codeToStatus c ↔
        (c ≠ .UNAUTHORIZED ∧ c ≠ .USAGE_EXCEEDED ∧ c ≠ .DISABLED ∧ c ≠ .EXPIRED)) ∧
    ErrorsHttp.codeToStatus .USAGE_EXCEEDED = 429 ∧
    ErrorsHttp.codeToStatus .DISABLED = 500 ∧
    ErrorsHttp.codeToStatus .EXPIRED = 500 ∧
    Part001.codeToStatus .USAGE_EXCEEDED = 403 ∧
    Part001.codeToStatus .DISABLED = 403 ∧
    Part001.codeToStatus .EXPIRED = 403 := by
  refine ⟨?_, rfl, rfl, rfl, rfl, rfl, rfl⟩
  decide

/-- C10 (witness for the amended theorem): both implementations map
`BAD_REQUEST` to the same status. -/
theorem codeToStatus_agreement_partition_witness :
    ErrorsHttp.codeToStatus ErrorCode.BAD_REQUEST =
      Part001.codeToStatus ErrorCode.BAD_REQUEST :=
  (codeToStatus_agreement_partition.1 ErrorCode.BAD_REQUEST).mpr (by decide)

/-! ## C9: MemoryStore.get on an expired entry -/

/-- C9: contrary to the claim, `MemoryStore.get` does not report an entry
whose `staleUntil` (stored as `expires`) has passed as absent: after storing
an entry with `staleUntil = 5` and reading at `now = 10`, the call returns
the entry itself (not `Ok(undefined)`), while also deleting it from the
map. -/
theorem memory_get_returns_expired_entry :
    (memoryGet (memorySet [] "ns" "k" ⟨7, 3, 5⟩) "ns" "k" 10).1 = some ⟨7, 3, 5⟩ ∧
    lookupA (memoryGet (memorySet [] "ns" "k" ⟨7, 3, 5⟩) "ns" "k" 10).2
      (buildCacheKey "ns" "k") = none :=
  ⟨rfl, rfl⟩

/-! ## C8: the tiered backfill never executes -/

/-- C8: on a hit in tier 1, `TieredStore.get` returns the entry, but the
scheduled backfill hands `Promise.all` a list of plain thunks
(`() => t.set(...)`), which it never invokes — so after the background work
completes, tier 0 still does not contain the found entry. -/
theorem tiered_backfill_never_runs :
    (tieredGet [⟨none, []⟩, ⟨none, [("k", 7)]⟩] "k").1 = .ok (some 7) ∧
    (tieredGet [⟨none, []⟩, ⟨none, [("k", 7)]⟩] "k").2 = [JsVal.funVal 0 "k" 7] ∧
    tieredGetAfterBackground [⟨none, []⟩, ⟨none, [("k", 7)]⟩] "k" =
      [⟨none, []⟩, ⟨none, [("k", 7)]⟩] ∧
    tierGet ⟨none, []⟩ "k" = .ok none :=
  ⟨rfl, rfl, rfl, rfl⟩

/-! ## C7: a tier error aborts the tiered lookup -/

/-- C7 (counterexample): an error in tier 0 is surfaced immediately even
though tier 1 does not fail and holds the value — the lookup does not
advance past the failing tier, and the error is surfaced although not every
tier failed. -/
theorem tiered_get_error_short_circuits :
    (tieredGet [⟨some "boom", []⟩, ⟨none, [("k", 7)]⟩] "k").1 = .error "boom" ∧
    (⟨none, [("k", 7)]⟩ : TierState).fails = none ∧
    tierGet ⟨none, [("k", 7)]⟩ "k" = .ok (some 7) :=
  ⟨rfl, rfl, rfl⟩

/-- C7 (amended): when every tier before `t` misses and `t` errors, the
tiered `get` returns `t`'s error immediately, whatever the later tiers
hold. -/
theorem tiered_get_first_error_surfaced (pre post : List TierState) (t : TierState)
    (k m : String) (h1 : ∀ u ∈ pre, tierGet u k = Except.ok none)
    (h2 : t.fails = some m) :
    (tieredGet (pre ++ t :: post) k).1 = Except.error m := by
  have aux : ∀ (pr : List TierState) (i : Nat), (∀ u ∈ pr, tierGet u k = Except.ok none) →
      (tieredGetLoop (pr ++ t :: post) k i).1 = Except.error m := by
    intro pr
    induction pr with
    | nil =>
      intro i _
      have ht : tierGet t k = Except.error m := by rw [tierGet, h2]
      simp [tieredGetLoop, ht]
    | cons u us ih =>
      intro i h
      have hu : tierGet u k = Except.ok none := h u (by simp)
      simpa [tieredGetLoop, hu] using ih (i + 1) (fun v hv => h v (by simp [hv]))
  exact aux pre 0 h1

/-- C7 (witness for the amended theorem): concrete three-tier instance. -/
theorem tiered_get_first_error_surfaced_witness :
    (∀ u ∈ [(⟨none, []⟩ : TierState)], tierGet u "k" = Except.ok none) ∧
    (⟨some "boom", []⟩ : TierState).fails = some "boom" ∧
    (tieredGet ([⟨none, []⟩] ++ (⟨some "boom", []⟩ : TierState) :: [⟨none, [("k", 9)]⟩]) "k").1 =
      Except.error "boom" :=
  ⟨by intro u hu; simp at hu; subst hu; rfl, rfl,
   tiered_get_first_error_surfaced [⟨none, []⟩] [⟨none, [("k", 9)]⟩] ⟨some "boom", []⟩
     "k" "boom" (by intro u hu; simp at hu; subst hu; rfl) rfl⟩

/-! ## C1: override resolution order -/

/-- C1 (counterexample): with the override list `["**x"; "*x"]` and the
identifier `"ax"` (no exact match, both wildcards match), the handler's
resolver picks the first listed pattern `"**x"` (two stars), not the
fewest-star pattern `"*x"` that the spec's priority — embodied by
`specResolveOverride` — selects. -/
theorem override_resolver_ignores_star_count :
    resolveOverride [⟨"**x", 1, 1000, none, none⟩, ⟨"*x", 2, 1000, none, none⟩] "ax" =
      some ⟨"**x", 1, 1000, none, none⟩ ∧
    specResolveOverride [⟨"**x", 1, 1000, none, none⟩, ⟨"*x", 2, 1000, none, none⟩] "ax" =
      some ⟨"*x", 2, 1000, none, none⟩ ∧
    starCount "**x" = 2 ∧
    starCount "*x" = 1 ∧
    wcMatch "**x" "ax" = true ∧
    wcMatch "*x" "ax" = true ∧
    resolveOverride [⟨"**x", 1, 1000, none, none⟩, ⟨"*x", 2, 1000, none, none⟩] "ax" ≠
      specResolveOverride [⟨"**x", 1, 1000, none, none⟩, ⟨"*x", 2, 1000, none, none⟩] "ax" := by
  refine ⟨rfl, rfl, rfl, rfl, rfl, rfl, ?_⟩
  decide

/-- C1 (amended): the resolver selects the exact literal match when one
exists; otherwise, the first override in the namespace's stored override
order whose pattern contains `*` and matches the identifier; if none match,
no override is selected (so the caller-provided defaults are used). -/
theorem override_resolver_first_match_order (os : List OverrideRow) (id : String) :
    resolveOverride os id = amendedResolveOverride os id := by
  rw [resolveOverride, amendedResolveOverride,
    find?_eq_head?_filter (fun o => o.identifier == id) os,
    find?_eq_head?_filter (fun o => includesStar o.identifier && wcMatch o.identifier id) os]

/-! ## C2: the limiter call's async flag -/

/-- C2: with an override defining `async = true` and a request with
`async = false`, the handler passes the override's `limit` and `duration`
to `rateLimiter.limit` and joins the override-derived `async` into the
identifier string, but the call's `async` field is the request's `false`,
not the override's `true`. -/
theorem limiter_call_uses_request_async :
    (buildRatelimitCall "ws" "nsid" (some ⟨"user_1", 5, 2000, some true, none⟩)
      ⟨"default", "user_1", 10, 60000, 1, false⟩ "colo").limit = 5 ∧
    (buildRatelimitCall "ws" "nsid" (some ⟨"user_1", 5, 2000, some true, none⟩)
      ⟨"default", "user_1", 10, 60000, 1, false⟩ "colo").interval = 2000 ∧
    (buildRatelimitCall "ws" "nsid" (some ⟨"user_1", 5, 2000, some true, none⟩)
      ⟨"default", "user_1", 10, 60000, 1, false⟩ "colo").identifier =
      "nsid::user_1::5::2000::true" ∧
    (⟨"user_1", 5, 2000, some true, none⟩ : OverrideRow).async = some true ∧
    (buildRatelimitCall "ws" "nsid" (some ⟨"user_1", 5, 2000, some true, none⟩)
      ⟨"default", "user_1", 10, 60000, 1, false⟩ "colo").async = false :=
  ⟨rfl, rfl, rfl, rfl, rfl⟩

/-! ## C4: remaining = max(0, effective limit - current) -/

/-- C4: every successful response's `remaining` equals
`max(0, effective_limit - current)`, where the effective limit is the
override's limit when one matched and the request's limit otherwise; in
particular `remaining` is never negative. -/
theorem remaining_max_zero_nonneg (os : List OverrideRow) (id : String)
    (reqLimit : Nat) (current : ℚ) :
    0 ≤ handlerRemaining os id reqLimit current ∧
    (∀ o, resolveOverride os id = some o →
      handlerRemaining os id reqLimit current = max 0 ((o.limit : ℚ) - current)) ∧
    (resolveOverride os id = none →
      handlerRemaining os id reqLimit current = max 0 ((reqLimit : ℚ) - current)) := by
  refine ⟨le_max_left _ _, ?_, ?_⟩
  · intro o ho
    rw [handlerRemaining, effectiveLimit, ho]
  · intro ho
    rw [handlerRemaining, effectiveLimit, ho]

/-- C4 (witness): no override matches, the limiter reports `current = 5`
against a request limit of 3; `remaining` is clamped to 0. -/
theorem remaining_max_zero_nonneg_witness :
    resolveOverride [] "u" = none ∧
    handlerRemaining [] "u" 3 5 = max 0 ((3 : ℚ) - 5) ∧
    0 ≤ handlerRemaining [] "u" 3 5 :=
  ⟨rfl, (remaining_max_zero_nonneg [] "u" 3 5).2.2 rfl,
   (remaining_max_zero_nonneg [] "u" 3 5).1⟩

/-! ## C5: namespace auto-creation -/

/-- C5: against a table with no row at all for `(ws, nm)`:
a caller without the `create_namespace` permission gets `NOT_FOUND` and the
table is unchanged; a caller with it inserts exactly one row; a second,
concurrent creation racing against the first (its insert runs after the
first one's) hits the duplicate-key error, falls back to reading the
existing row, and leaves the table with exactly one active row for
`(ws, nm)`. -/
theorem namespace_autocreate_dupsafe (db : NamespaceDB) (ws nm id1 id2 : String)
    (t1 t2 : Nat)
    (hactive : findActiveNamespace db ws nm = none)
    (hany : db.find? (fun r => r.name == nm && r.workspaceId == ws) = none) :
    namespaceOrNotFound db false ws nm id1 t1 = (db, Except.error ErrorCode.NOT_FOUND) ∧
    createNamespaceFallback db ⟨id1, ws, nm, none, t1⟩ =
      (db ++ [⟨id1, ws, nm, none, t1⟩], some ⟨id1, ws, nm, none, t1⟩) ∧
    createNamespaceFallback (db ++ [⟨id1, ws, nm, none, t1⟩]) ⟨id2, ws, nm, none, t2⟩ =
      (db ++ [⟨id1, ws, nm, none, t1⟩], some ⟨id1, ws, nm, none, t1⟩) ∧
    countActive (db ++ [⟨id1, ws, nm, none, t1⟩]) ws nm = 1 := by
  have hrow1 : activeFor ws nm ⟨id1, ws, nm, none, t1⟩ = true := by
    simp [activeFor]
  have hfound : findActiveNamespace (db ++ [⟨id1, ws, nm, none, t1⟩]) ws nm =
      some ⟨id1, ws, nm, none, t1⟩ := by
    rw [findActiveNamespace, List.find?_append]
    rw [findActiveNamespace] at hactive
    rw [hactive]
    simp [List.find?_cons, hrow1]
  refine ⟨?_, ?_, ?_, ?_⟩
  · rw [namespaceOrNotFound, namespaceForLimit, hactive]
    rfl
  · rw [createNamespaceFallback, insertNamespace]
    rw [show (⟨id1, ws, nm, none, t1⟩ : NamespaceRow).workspaceId = ws from rfl,
        show (⟨id1, ws, nm, none, t1⟩ : NamespaceRow).name = nm from rfl, hactive]
    rfl
  · rw [createNamespaceFallback, insertNamespace]
    rw [show (⟨id2, ws, nm, none, t2⟩ : NamespaceRow).workspaceId = ws from rfl,
        show (⟨id2, ws, nm, none, t2⟩ : NamespaceRow).name = nm from rfl, hfound]
    simp only [Option.isSome_some, if_pos]
    rw [List.find?_append, hany]
    simp [List.find?_cons]
  · rw [countActive, List.filter_append]
    have hnilf : db.filter (activeFor ws nm) = [] := by
      rw [List.filter_eq_nil_iff]
      intro a ha
      have := List.find?_eq_none.mp hactive a ha
      simpa using this
    rw [hnilf]
    simp [List.filter_cons, hrow1]

/-- C5 (witness): concrete run from an empty table. -/
theorem namespace_autocreate_dupsafe_witness :
    findActiveNamespace [] "w" "n" = none ∧
    namespaceOrNotFound [] false "w" "n" "rl_1" 17 =
      ([], Except.error ErrorCode.NOT_FOUND) ∧
    createNamespaceFallback [] ⟨"rl_1", "w", "n", none, 17⟩ =
      ([⟨"rl_1", "w", "n", none, 17⟩], some ⟨"rl_1", "w", "n", none, 17⟩) ∧
    createNamespaceFallback [⟨"rl_1", "w", "n", none, 17⟩] ⟨"rl_2", "w", "n", none, 18⟩ =
      ([⟨"rl_1", "w", "n", none, 17⟩], some ⟨"rl_1", "w", "n", none, 17⟩) ∧
    countActive [⟨"rl_1", "w", "n", none, 17⟩] "w" "n" = 1 := by
  have h := namespace_autocreate_dupsafe [] "w" "n" "rl_1" "rl_2" 17 18 rfl rfl
  exact ⟨rfl, h.1, h.2.1, h.2.2.1, h.2.2.2⟩

/-! ## C6: single-flight deduplication -/

/-- In a settle-free burst of calls, the origin loader runs for key `k` at
most once — and not at all when a fetch for `k` is already in flight. -/
theorem countInvocations_le (calls : List String) :
    ∀ (st : SwrState) (n : Nat) (k : String),
      countInvocations st calls k n ≤ if (lookupA st k).isSome then 0 else 1 := by
  induction calls with
  | nil =>
    intro st n k
    rw [countInvocations]
    split <;> omega
  | cons c rest ih =>
    intro st n k
    rw [countInvocations]
    cases hl : lookupA st c with
    | some p =>
      simp only [deduplicateLoadFromOrigin, hl]
      have : (if c = k ∧ false = true then 1 else 0) = 0 := by simp
      rw [this]
      simpa using ih st (n + 1) k
    | none =>
      simp only [deduplicateLoadFromOrigin, hl]
      by_cases hck : c = k
      · subst hck
        have hnext : lookupA ((c, n) :: st) c = some n := by
          rw [lookupA_cons]
          simp
        have hr := ih ((c, n) :: st) (n + 1) c
        rw [hnext] at hr
        simp only [Option.isSome_some, if_true] at hr
        simp [hl]
        omega
      · have hnext : lookupA ((c, n) :: st) k = lookupA st k := by
          rw [lookupA_cons]
          simp [hck]
        have hr := ih ((c, n) :: st) (n + 1) k
        rw [hnext] at hr
        simpa [hck] using hr

/-- C6: single-flight — while a fetch for a key is in flight, a burst of
concurrent callers invokes `loadFromOrigin` at most once in total (and not
at all if the marker is already present); a caller that finds a registered
promise awaits exactly that promise without touching the map; and once the
awaited promise settles — successfully or not — the `finally` block removes
the in-flight marker. -/
theorem swr_single_flight (st : SwrState) (calls : List String) (k : String) (n : Nat) :
    countInvocations st calls k n ≤ (if (lookupA st k).isSome then 0 else 1) ∧
    (∀ p fresh, lookupA st k = some p →
      deduplicateLoadFromOrigin st k fresh = (false, p, st)) ∧
    (∀ ok, lookupA (revalidateSettle st k ok) k = none) := by
  refine ⟨countInvocations_le calls st n k, ?_, ?_⟩
  · intro p fresh hp
    rw [deduplicateLoadFromOrigin, hp]
  · intro ok
    rw [revalidateSettle]
    exact lookupA_eraseA st k

/-- C6 (witness): a burst of three calls from an empty map; a second caller
reusing the in-flight promise 5; settling after an error removes the
marker. -/
theorem swr_single_flight_witness :
    countInvocations [] ["a", "a", "b"] "a" 0 ≤
      (if (lookupA ([] : SwrState) "a").isSome then 0 else 1) ∧
    lookupA [("a", 5)] "a" = some 5 ∧
    deduplicateLoadFromOrigin [("a", 5)] "a" 9 = (false, 5, [("a", 5)]) ∧
    lookupA (revalidateSettle [("a", 5)] "a" false) "a" = none :=
  ⟨(swr_single_flight [] ["a", "a", "b"] "a" 0).1, rfl,
   (swr_single_flight [("a", 5)] [] "a" 0).2.1 5 9 rfl,
   (swr_single_flight [("a", 5)] [] "a" 0).2.2 false⟩

/-! ## C3: cost = 0 is a non-mutating, always-passing peek

The following lemmas establish the reachable-state invariant of the
sliding-window counter: along any chronological trace from the fresh
counter, the interpolated effective count never exceeds the limit. -/

/-- The interpolation weight is nonnegative. -/
theorem weight_nonneg (D t : Nat) (hD : 0 < D) : 0 ≤ weight D t := by
  rw [weight, sub_nonneg]
  have h1 : t % D < D := Nat.mod_lt _ hD
  have h2 : ((t % D : Nat) : ℚ) ≤ (D : ℚ) := by exact_mod_cast h1.le
  have hD' : (0 : ℚ) < (D : ℚ) := by exact_mod_cast hD
  exact div_le_one_of_le₀ h2 hD'.le

/-- The interpolation weight is at most one. -/
theorem weight_le_one (D t : Nat) : weight D t ≤ 1 := by
  rw [weight]
  have h : (0 : ℚ) ≤ ((t % D : Nat) : ℚ) / (D : ℚ) := by positivity
  linarith

/-- Equal window starts mean equal window indices. -/
theorem windowStart_inj (D t1 t2 : Nat) (hD : 0 < D)
    (h : windowStart D t1 = windowStart D t2) : t1 / D = t2 / D := by
  rw [windowStart, windowStart] at h
  exact Nat.eq_of_mul_eq_mul_left hD h

/-- Within one window the weight decreases as time advances. -/
theorem weight_mono (D t1 t2 : Nat) (hD : 0 < D) (h12 : t1 ≤ t2)
    (hq : t1 / D = t2 / D) : weight D t2 ≤ weight D t1 := by
  have hmod : t1 % D ≤ t2 % D := by
    have e1 := Nat.div_add_mod t1 D
    have e2 := Nat.div_add_mod t2 D
    rw [hq] at e1
    generalize hA : D * (t2 / D) = A at e1 e2
    omega
  have hcast : ((t1 % D : Nat) : ℚ) ≤ ((t2 % D : Nat) : ℚ) := by exact_mod_cast hmod
  have hD' : (0 : ℚ) < (D : ℚ) := by exact_mod_cast hD
  rw [weight, weight]
  have := (div_le_div_iff_of_pos_right hD').mpr hcast
  linarith

/-- After a roll the stored window is the window of `t`. -/
theorem roll_start (D t : Nat) (s : Counter) : (roll D t s).start = windowStart D t := by
  rw [roll]
  split
  · next h => exact h
  · rfl

/-- A roll keeps or clears the current count. -/
theorem roll_current (D t : Nat) (s : Counter) :
    (roll D t s).current = s.current ∨ (roll D t s).current = 0 := by
  rw [roll]
  split
  · exact Or.inl rfl
  · exact Or.inr rfl

/-- A roll keeps the previous count or moves the current one into it. -/
theorem roll_previous (D t : Nat) (s : Counter) :
    (roll D t s).previous = s.previous ∨ (roll D t s).previous = s.current := by
  rw [roll]
  split
  · exact Or.inl rfl
  · exact Or.inr rfl

/-- A counter already in the window of `t` is unchanged by the roll. -/
theorem roll_of_start_eq (D t : Nat) (s : Counter) (h : s.start = windowStart D t) :
    roll D t s = s := by
  rw [roll, if_pos h]

/-- A counter in another window rolls. -/
theorem roll_of_start_ne (D t : Nat) (s : Counter) (h : s.start ≠ windowStart D t) :
    roll D t s = ⟨windowStart D t, 0, s.current⟩ := by
  rw [roll, if_neg h]

/-- Rolling to two times of the same window is the same roll. -/
theorem roll_eq_of_ws_eq (D t1 t2 : Nat) (s : Counter)
    (h : windowStart D t1 = windowStart D t2) : roll D t1 s = roll D t2 s := by
  rw [roll, roll, h]

/-- One `step` preserves the counter invariant. -/
theorem counterInv_step (L D t0 t1 c : Nat) (s : Counter) (hD : 0 < D)
    (hInv : CounterInv L D t0 s) (h01 : t0 ≤ t1) :
    CounterInv L D t1 (step L D t1 c s).1 := by
  obtain ⟨hcur, hprev, hall⟩ := hInv
  have hrs : (roll D t1 s).start = windowStart D t1 := roll_start D t1 s
  have hLnn : (0 : ℚ) ≤ (L : ℚ) := Nat.cast_nonneg L
  have hrcur : ((roll D t1 s).current : ℚ) ≤ (L : ℚ) := by
    rcases roll_current D t1 s with h | h <;> rw [h]
    · exact hcur
    · exact_mod_cast hLnn
  have hrprev : ((roll D t1 s).previous : ℚ) ≤ (L : ℚ) := by
    rcases roll_previous D t1 s with h | h <;> rw [h]
    · exact hprev
    · exact hcur
  have heff : effective D t1 (roll D t1 s) ≤ (L : ℚ) := hall t1 h01
  by_cases hc0 : c = 0
  · have hstate : (step L D t1 c s).1 = s := by simp [step, hc0]
    rw [hstate]
    exact ⟨hcur, hprev, fun t ht => hall t (le_trans h01 ht)⟩
  · by_cases hpass : effective D t1 (roll D t1 s) + (c : ℚ) ≤ (L : ℚ)
    · have hstate : (step L D t1 c s).1 =
          { roll D t1 s with current := (roll D t1 s).current + c } := by
        simp [step, hc0, hpass]
      rw [hstate]
      have hwprev : (0 : ℚ) ≤ weight D t1 * ((roll D t1 s).previous : ℚ) :=
        mul_nonneg (weight_nonneg D t1 hD) (Nat.cast_nonneg _)
      have hXle : ((roll D t1 s).current : ℚ) + (c : ℚ) ≤ (L : ℚ) := by
        rw [effective] at hpass
        linarith
      refine ⟨?_, hrprev, ?_⟩
      · push_cast
        exact hXle
      · intro t ht
        by_cases hw : windowStart D t = windowStart D t1
        · have hs'start :
              ({ roll D t1 s with current := (roll D t1 s).current + c } : Counter).start =
                windowStart D t := by
            show (roll D t1 s).start = windowStart D t
            rw [hrs, hw]
          rw [roll_of_start_eq D t _ hs'start, effective]
          show ((roll D t1 s).current + c : Nat) +
            weight D t * ((roll D t1 s).previous : ℚ) ≤ (L : ℚ)
          have hwm : weight D t ≤ weight D t1 :=
            weight_mono D t1 t hD ht (windowStart_inj D t1 t hD hw.symm)
          have hmul := mul_le_mul_of_nonneg_right hwm
            (Nat.cast_nonneg (α := ℚ) (roll D t1 s).previous)
          rw [effective] at hpass
          push_cast
          linarith
        · have hs'start :
              ({ roll D t1 s with current := (roll D t1 s).current + c } : Counter).start ≠
                windowStart D t := by
            show (roll D t1 s).start ≠ windowStart D t
            rw [hrs]
            exact fun hcontra => hw hcontra.symm
          rw [roll_of_start_ne D t _ hs'start, effective]
          show ((0 : Nat) : ℚ) + weight D t *
            (({ roll D t1 s with current := (roll D t1 s).current + c } : Counter).current : ℚ) ≤ (L : ℚ)
          show ((0 : Nat) : ℚ) + weight D t * (((roll D t1 s).current + c : Nat) : ℚ) ≤ (L : ℚ)
          have hXnn : (0 : ℚ) ≤ (((roll D t1 s).current + c : Nat) : ℚ) := Nat.cast_nonneg _
          have hmul := mul_le_of_le_one_left hXnn (weight_le_one D t)
          push_cast
          push_cast at hXle hmul
          linarith
    · have hstate : (step L D t1 c s).1 = roll D t1 s := by
        simp [step, hc0, hpass]
      rw [hstate]
      refine ⟨hrcur, hrprev, ?_⟩
      intro t ht
      by_cases hw : windowStart D t = windowStart D t1
      · have h1 : roll D t (roll D t1 s) = roll D t1 s :=
          roll_of_start_eq D t _ (by rw [hrs, hw])
        have h2 : roll D t1 s = roll D t s := roll_eq_of_ws_eq D t1 t s hw.symm
        rw [h1, h2]
        exact hall t (le_trans h01 ht)
      · have h1 : roll D t (roll D t1 s) = ⟨windowStart D t, 0, (roll D t1 s).current⟩ :=
          roll_of_start_ne D t _ (by rw [hrs]; exact fun hcontra => hw hcontra.symm)
        rw [h1, effective]
        show ((0 : Nat) : ℚ) + weight D t * ((roll D t1 s).current : ℚ) ≤ (L : ℚ)
        have hXnn : (0 : ℚ) ≤ ((roll D t1 s).current : ℚ) := Nat.cast_nonneg _
        have hmul := mul_le_of_le_one_left hXnn (weight_le_one D t)
        push_cast
        linarith

/-- The fresh counter satisfies the invariant. -/
theorem counterInv_init (L D : Nat) : CounterInv L D 0 counterInit := by
  have hLnn : (0 : ℚ) ≤ (L : ℚ) := Nat.cast_nonneg L
  refine ⟨by simp [counterInit], by simp [counterInit], ?_⟩
  intro t _
  rw [roll]
  split
  · rw [effective]
    simp [counterInit]
  · rw [effective]
    simp [counterInit]

/-- Splitting a chronological trace at its appended last request. -/
theorem chronoB_append (reqs : List (Nat × Nat)) :
    ∀ (t0 t c : Nat), chronoB t0 (reqs ++ [(t, c)]) = true →
      chronoB t0 reqs = true ∧ lastT t0 reqs ≤ t := by
  induction reqs with
  | nil =>
    intro t0 t c h
    rw [List.nil_append, chronoB, chronoB, Bool.and_true] at h
    exact ⟨rfl, by simpa [lastT] using of_decide_eq_true h⟩
  | cons hd tl ih =>
    intro t0 t c h
    obtain ⟨t1, c1⟩ := hd
    rw [List.cons_append, chronoB, Bool.and_eq_true] at h
    obtain ⟨h1, h2⟩ := h
    obtain ⟨ih1, ih2⟩ := ih t1 t c h2
    refine ⟨?_, by simpa [lastT] using ih2⟩
    rw [chronoB, Bool.and_eq_true]
    exact ⟨h1, ih1⟩

/-- A chronological trace preserves the counter invariant. -/
theorem counterInv_runTrace (reqs : List (Nat × Nat)) :
    ∀ (L D t0 : Nat) (s : Counter), 0 < D → CounterInv L D t0 s →
      chronoB t0 reqs = true → CounterInv L D (lastT t0 reqs) (runTrace L D reqs s) := by
  induction reqs with
  | nil =>
    intro L D t0 s _ hInv _
    simpa [runTrace, lastT] using hInv
  | cons hd tl ih =>
    intro L D t0 s hD hInv hch
    obtain ⟨t1, c1⟩ := hd
    rw [chronoB, Bool.and_eq_true] at hch
    obtain ⟨h1, h2⟩ := hch
    have h1' : t0 ≤ t1 := of_decide_eq_true h1
    have hnext := counterInv_step L D t0 t1 c1 s hD hInv h1'
    have := ih L D t1 (step L D t1 c1 s).1 hD hnext h2
    simpa [runTrace, lastT] using this

/-- C3: after any chronological trace of Limit requests on a fresh
counter, a request with `cost = 0` at any later time leaves the counter
state unchanged, reports `success = true`, and returns the current
interpolated effective count. -/
theorem ratelimit_cost_zero_peek (L D : Nat) (reqs : List (Nat × Nat)) (t : Nat)
    (hD : 0 < D) (hc : chronoB 0 (reqs ++ [(t, 0)]) = true) :
    (step L D t 0 (runTrace L D reqs counterInit)).1 = runTrace L D reqs counterInit ∧
    (step L D t 0 (runTrace L D reqs counterInit)).2.passed = true ∧
    (step L D t 0 (runTrace L D reqs counterInit)).2.current =
      effective D t (roll D t (runTrace L D reqs counterInit)) := by
  obtain ⟨hch, hle⟩ := chronoB_append reqs 0 t 0 hc
  have hInv := counterInv_runTrace reqs L D 0 counterInit hD (counterInv_init L D) hch
  have heff : effective D t (roll D t (runTrace L D reqs counterInit)) ≤ (L : ℚ) :=
    hInv.2.2 t hle
  refine ⟨rfl, ?_, rfl⟩
  show decide (effective D t (roll D t (runTrace L D reqs counterInit)) +
    ((0 : Nat) : ℚ) ≤ (L : ℚ)) = true
  rw [decide_eq_true_eq]
  push_cast
  linarith

/-- C3 (witness): limit 10, window 1000 ms, costs 3 and 2 spent, peek at
t = 700. -/
theorem ratelimit_cost_zero_peek_witness :
    0 < 1000 ∧ chronoB 0 ([(0, 3), (500, 2)] ++ [(700, 0)]) = true ∧
    ((step 10 1000 700 0 (runTrace 10 1000 [(0, 3), (500, 2)] counterInit)).1 =
      runTrace 10 1000 [(0, 3), (500, 2)] counterInit ∧
    (step 10 1000 700 0 (runTrace 10 1000 [(0, 3), (500, 2)] counterInit)).2.passed = true ∧
    (step 10 1000 700 0 (runTrace 10 1000 [(0, 3), (500, 2)] counterInit)).2.current =
      effective 1000 700 (roll 1000 700 (runTrace 10 1000 [(0, 3), (500, 2)] counterInit))) :=
  ⟨by decide, by decide,
   ratelimit_cost_zero_peek 10 1000 [(0, 3), (500, 2)] 700 (by decide) (by decide)⟩
